import Mathlib

/-!
Shallow embedding of `src/actions.js` (rad-flux): an in-process action
dispatcher.  Each declared action holds an ordered subscriber list and an
optional handler.  Callbacks and handlers are external JavaScript functions;
we model them as opaque identifiers (`Nat`) and model an invocation of the
dispatcher as the *effect* it produces: either "the handler was invoked with
the bound done-callback and the payload", or an ordered list of
subscriber-invocation events `(subscriber, argument)`.

The `this.actions` object is an association list of own keys, but the
property read `this.actions[key]` is modelled with the full JavaScript
lookup: an own key shadows the prototype; failing that, the members of
`Object.prototype` (`toString`, `hasOwnProperty`, ...) are found as truthy
inherited values; only then is the result `undefined`.  An inherited value
has neither a `subscribers` nor a `func` own property, so operations that
read those fields on it crash with a runtime `TypeError`, exactly as the
source does.  Fallible operations return `Except JSError _`; `JSError`
distinguishes JS `TypeError` from plain `Error`, matching the constructors
and crash sites of the source.  The embedding is typed, so the dynamic
`typeof` guards of `registerAsync` and `on` (key must be a string,
func/callback must be a function) hold by construction and cannot fire.
-/

namespace RadFlux

/-- A JavaScript exception: either a `TypeError` or a plain `Error`,
each carrying its message, exactly as the source constructs or the runtime
raises them. -/
inductive JSError : Type
  | typeError (msg : String) : JSError
  | error (msg : String) : JSError
  deriving DecidableEq

/-- Message of `throw new Error(...)` at actions.js line 64. -/
def notDeclaredMsg : String := "Actions.registerAsync: action not declared, please add it to the constructor"

/-- Message of `throw new Error(...)` at actions.js line 65. -/
def alreadyRegisteredMsg : String := "Actions.registerAsync: action already registered"

/-- Message of the runtime `TypeError` raised in `on` when
`this.actions[key]` is `undefined` and `.subscribers` is read from it. -/
def undefinedSubscribersMsg : String := "Cannot read properties of undefined (reading subscribers)"

/-- Message of the runtime `TypeError` raised in `on` when
`this.actions[key]` is an inherited value: its `subscribers` is
`undefined`, and `.includes` is read from that. -/
def includesOfUndefinedMsg : String := "Cannot read properties of undefined (reading includes)"

/-- Message of the runtime `TypeError` raised in `publish` when iterating
`action.subscribers` of an inherited value (`undefined` is not iterable). -/
def subscribersNotIterableMsg : String := "action.subscribers is not iterable"

/-- Message of the runtime `TypeError` raised in `unsubscribe` when
reading `.length` of the `undefined` `subscribers` of an inherited value. -/
def lengthOfUndefinedMsg : String := "Cannot read properties of undefined (reading length)"

/-- One action record `{ subscribers: [...], func }` (actions.js lines 44-47):
an ordered list of subscriber callbacks and an optional handler
(`func: null` is `none`). -/
structure Action : Type where
  subscribers : List Nat
  func : Option Nat
  deriving DecidableEq

/-- The own properties of the `this.actions` object: an association list
from declared action name to its record.  A JS object has distinct own
keys. -/
abbrev Registry : Type := List (String × Action)

/-- Own-property lookup: the record of the first entry whose key matches,
`none` when no own key matches.  (The full JS read, prototype included, is
`getProperty` below.) -/
def lookupAction : Registry → String → Option Action
  | [], _ => none
  | (k, a) :: rest, key => if k = key then some a else lookupAction rest key

/-- Overwrite the record stored under an own `key` (the effect of
`Object.defineProperty(this.actions, key, { value: ... })` or of mutating
the record in place).  Entries under other keys are untouched; no new key
is ever created by the dispatcher's operations. -/
def setAction (r : Registry) (key : String) (a : Action) : Registry :=
  r.map (fun e => if e.1 = key then (key, a) else e)

/-- `constructor(actions)` (actions.js lines 38-50): `for..in` visits the
own enumerable keys (the members of `Object.prototype` are not enumerable),
and every declared name is bound to a fresh record with an empty subscriber
list and no handler. -/
def construct (names : List String) : Registry :=
  names.map (fun n => (n, ⟨[], none⟩))

/-- The own property names of `Object.prototype`.  An object built from a
JS object literal inherits these, so `this.actions[key]` is a defined,
truthy value for each of them even when `key` was never declared. -/
def objectProtoKeys : List String :=
  ["constructor", "hasOwnProperty", "isPrototypeOf", "propertyIsEnumerable",
   "toLocaleString", "toString", "valueOf", "__proto__", "__defineGetter__",
   "__defineSetter__", "__lookupGetter__", "__lookupSetter__"]

/-- A defined (non-`undefined`) value of the property read
`this.actions[key]`: either an own action record, or a truthy value
inherited from `Object.prototype` (a function such as `toString`, or the
prototype object itself for `__proto__`), which has neither a
`subscribers` nor a `func` property. -/
inductive BoundValue : Type
  | record (a : Action) : BoundValue
  | inherited : BoundValue
  deriving DecidableEq

/-- The full JS property read `this.actions[key]`: an own key shadows the
prototype; otherwise a member of `Object.prototype` is found; otherwise
the result is `undefined` (`none`). -/
def getProperty (r : Registry) (key : String) : Option BoundValue :=
  match lookupAction r key with
  | some a => some (BoundValue.record a)
  | none =>
    if key ∈ objectProtoKeys then some BoundValue.inherited else none

/-- The JS test `typeof value.func === 'function'`, as the handler it
yields: an own record's attached handler; an inherited value's `func` is
`undefined`, never a function. -/
def BoundValue.handler : BoundValue → Option Nat
  | record a => a.func
  | inherited => none

/-- The JS test `value.func !== null` (actions.js line 65): an own record's
`func` is `null` or a function; an inherited value's `func` is `undefined`,
and `undefined !== null` holds. -/
def BoundValue.funcNotNull : BoundValue → Bool
  | record a => a.func.isSome
  | inherited => true

/-- `registerAsync(key, func)` (actions.js lines 61-73).  The `typeof`
guards hold by typing.  An `undefined` lookup raises the not-declared
`Error`; the `func !== null` guard raises the already-registered `Error`
(also for an inherited value, whose `func` is `undefined`); on success the
record is replaced wholesale by `{ subscribers: [], func }` — note the
fresh empty subscriber list. -/
def registerAsync (r : Registry) (key : String) (f : Nat) : Except JSError Registry :=
  match getProperty r key with
  | none => Except.error (JSError.error notDeclaredMsg)
  | some v =>
    if v.funcNotNull then Except.error (JSError.error alreadyRegisteredMsg)
    else Except.ok (setAction r key ⟨[], some f⟩)

/-- `publish(key, data)` (actions.js lines 109-116): `if (action)` is true
both for an own record and for an inherited value; on a record, each
current subscriber is invoked in list order with `data` as sole argument
(the returned events); on an inherited value, iterating its `undefined`
`subscribers` crashes with a `TypeError`; an `undefined` lookup publishes
nothing. -/
def publish {V : Type} (r : Registry) (key : String) (data : V) :
    Except JSError (List (Nat × V)) :=
  match getProperty r key with
  | none => Except.ok []
  | some (BoundValue.record a) => Except.ok (a.subscribers.map (fun s => (s, data)))
  | some BoundValue.inherited => Except.error (JSError.typeError subscribersNotIterableMsg)

/-- The synchronous effect of a `call(key, data)` that raises nothing:
either the handler is invoked (with the done-callback bound to `key`, and
the payload), or the subscribers are invoked now, or nothing happens. -/
inductive CallEffect (V : Type) : Type
  | invokeHandler (f : Nat) (key : String) (payload : V) : CallEffect V
  | publishNow (events : List (Nat × V)) : CallEffect V
  | noop : CallEffect V
  deriving DecidableEq

/-- `call(key, data)` (actions.js lines 79-91): an `undefined` lookup is a
silent no-op; with a handler attached, the handler is invoked as
`func(done, data)` and no subscriber runs; otherwise `publish` runs
immediately — which, for an inherited value (whose `func` is `undefined`,
not a function), crashes inside `publish`. -/
def call {V : Type} (r : Registry) (key : String) (data : V) :
    Except JSError (CallEffect V) :=
  match getProperty r key with
  | none => Except.ok CallEffect.noop
  | some v =>
    match v.handler with
    | some f => Except.ok (CallEffect.invokeHandler f key data)
    | none =>
      match publish r key data with
      | Except.ok events => Except.ok (CallEffect.publishNow events)
      | Except.error e => Except.error e

/-- `buildDoneFunction(key)` (actions.js lines 98-103): the returned closure
captures the registry and `key`; invoking it with `result` publishes
`result` to the subscribers the registry holds at invocation time. -/
def buildDoneFunction {V : Type} (key : String) :
    Registry → V → Except JSError (List (Nat × V)) :=
  fun r result => publish r key result

/-- `on(key, callback)` (actions.js lines 132-139).  The `typeof` guards
hold by typing.  The lookup `this.actions[key].subscribers` is unchecked:
an `undefined` lookup crashes reading `.subscribers`; an inherited value
crashes one step later, reading `.includes` of its `undefined`
`subscribers`.  On an own record: if `callback` is already subscribed
nothing happens and `undefined` (`none`) is returned; else `callback` is
appended and returned. -/
def on' (r : Registry) (key : String) (callback : Nat) :
    Except JSError (Registry × Option Nat) :=
  match getProperty r key with
  | none => Except.error (JSError.typeError undefinedSubscribersMsg)
  | some BoundValue.inherited => Except.error (JSError.typeError includesOfUndefinedMsg)
  | some (BoundValue.record a) =>
    if callback ∈ a.subscribers then
      Except.ok (r, none)
    else
      Except.ok (setAction r key ⟨a.subscribers ++ [callback], a.func⟩, some callback)

/-- The loop body of `unsubscribe` (actions.js lines 152-157): splice out
the first element identical to `callback`, leaving the rest in order. -/
def removeFirst (callback : Nat) : List Nat → List Nat
  | [] => []
  | x :: xs => if x = callback then xs else x :: removeFirst callback xs

/-- `unsubscribe(key, callback)` (actions.js lines 149-159): an `undefined`
lookup is a silent no-op; an inherited value crashes reading `.length` of
its `undefined` `subscribers`; on an own record the first subscriber
identical to `callback` is removed (the loop returns right after the
splice), and if none matches the loop falls through without mutating
anything. -/
def unsubscribe (r : Registry) (key : String) (callback : Nat) :
    Except JSError Registry :=
  match getProperty r key with
  | none => Except.ok r
  | some BoundValue.inherited => Except.error (JSError.typeError lengthOfUndefinedMsg)
  | some (BoundValue.record a) =>
    if callback ∈ a.subscribers then
      Except.ok (setAction r key ⟨removeFirst callback a.subscribers, a.func⟩)
    else Except.ok r

/-- One state-mutating operation on the registry, for reasoning about all
states reachable from construction.  A raised error leaves the state as the
caller held it. -/
inductive Op : Type
  | register (key : String) (f : Nat) : Op
  | subscribe (key : String) (callback : Nat) : Op
  | unsub (key : String) (callback : Nat) : Op

/-- Apply one operation; on a raised error the registry is unchanged. -/
def applyOp (r : Registry) : Op → Registry
  | Op.register key f =>
    match registerAsync r key f with
    | Except.ok r2 => r2
    | Except.error _ => r
  | Op.subscribe key cb =>
    match on' r key cb with
    | Except.ok (r2, _) => r2
    | Except.error _ => r
  | Op.unsub key cb =>
    match unsubscribe r key cb with
    | Except.ok r2 => r2
    | Except.error _ => r

/-- Apply a sequence of operations from left to right. -/
def applyOps (r : Registry) : List Op → Registry
  | [] => r
  | op :: ops => applyOps (applyOp r op) ops

/-! Basic lemmas about lookup, update and the property read. -/

theorem setAction_cons (k : String) (c : Action) (rest : Registry)
    (key : String) (b : Action) :
    setAction ((k, c) :: rest) key b =
      (if k = key then (key, b) else (k, c)) :: setAction rest key b := by
  by_cases hk : k = key <;> simp [setAction, hk]

theorem lookup_cons (k : String) (c : Action) (rest : Registry) (key : String) :
    lookupAction ((k, c) :: rest) key =
      if k = key then some c else lookupAction rest key := rfl

theorem lookup_set_self (r : Registry) (key : String) (a b : Action)
    (h : lookupAction r key = some a) :
    lookupAction (setAction r key b) key = some b := by
  induction r with
  | nil => simp [lookupAction] at h
  | cons e rest ih =>
    obtain ⟨k, c⟩ := e
    rw [setAction_cons]
    by_cases hk : k = key
    · rw [if_pos hk, lookup_cons, if_pos rfl]
    · rw [lookup_cons, if_neg hk] at h
      rw [if_neg hk, lookup_cons, if_neg hk]
      exact ih h

theorem lookup_set_ne (r : Registry) (key k2 : String) (b : Action)
    (h : k2 ≠ key) :
    lookupAction (setAction r key b) k2 = lookupAction r k2 := by
  induction r with
  | nil => rfl
  | cons e rest ih =>
    obtain ⟨k, c⟩ := e
    have h1 : ¬ (key = k2) := fun hkk => h hkk.symm
    rw [setAction_cons]
    by_cases hk : k = key
    · have h2 : ¬ (k = k2) := by
        rw [hk]
        exact h1
      rw [if_pos hk, lookup_cons, if_neg h1, lookup_cons, if_neg h2]
      exact ih
    · rw [if_neg hk, lookup_cons, lookup_cons]
      by_cases hk2 : k = k2
      · rw [if_pos hk2, if_pos hk2]
      · rw [if_neg hk2, if_neg hk2]
        exact ih

theorem lookup_set_none (r : Registry) (key name : String) (b : Action)
    (h : lookupAction r name = none) :
    lookupAction (setAction r key b) name = none := by
  induction r with
  | nil => rfl
  | cons e rest ih =>
    obtain ⟨k, c⟩ := e
    rw [lookup_cons] at h
    have hn : ¬ (k = name) := by
      intro hkn
      rw [if_pos hkn] at h
      exact Option.noConfusion h
    rw [if_neg hn] at h
    rw [setAction_cons]
    by_cases hk : k = key
    · have hkn : ¬ (key = name) := by
        rw [← hk]
        exact hn
      rw [if_pos hk, lookup_cons, if_neg hkn]
      exact ih h
    · rw [if_neg hk, lookup_cons, if_neg hn]
      exact ih h

theorem lookup_construct_not_mem (S : List String) (name : String)
    (h : name ∉ S) :
    lookupAction (construct S) name = none := by
  induction S with
  | nil => rfl
  | cons n rest ih =>
    have h1 : ¬ (n = name) := by
      intro hn
      exact h (by rw [hn]; exact List.mem_cons_self name rest)
    have h2 : name ∉ rest := fun hm => h (List.mem_cons_of_mem n hm)
    show lookupAction ((n, ⟨[], none⟩) :: construct rest) name = none
    rw [lookup_cons, if_neg h1]
    exact ih h2

theorem getProperty_own (r : Registry) (key : String) (a : Action)
    (h : lookupAction r key = some a) :
    getProperty r key = some (BoundValue.record a) := by
  simp [getProperty, h]

theorem getProperty_undef (r : Registry) (key : String)
    (h1 : lookupAction r key = none) (h2 : key ∉ objectProtoKeys) :
    getProperty r key = none := by
  simp [getProperty, h1, h2]

theorem own_of_getProperty (r : Registry) (key : String) (a : Action)
    (h : getProperty r key = some (BoundValue.record a)) :
    lookupAction r key = some a := by
  cases hl : lookupAction r key with
  | some b =>
    simp only [getProperty, hl, Option.some.injEq, BoundValue.record.injEq] at h
    rw [h]
  | none =>
    by_cases hp : key ∈ objectProtoKeys
    · simp [getProperty, hl, hp] at h
    · simp [getProperty, hl, hp] at h

/-! Characterisations of each operation's outcomes. -/

theorem registerAsync_success (r : Registry) (key : String) (a : Action) (f : Nat)
    (ha : lookupAction r key = some a) (hf : a.func = none) :
    registerAsync r key f = Except.ok (setAction r key ⟨[], some f⟩) := by
  simp [registerAsync, getProperty_own r key a ha, BoundValue.funcNotNull, hf]

theorem registerAsync_already (r : Registry) (key : String) (a : Action) (g f : Nat)
    (ha : lookupAction r key = some a) (hg : a.func = some g) :
    registerAsync r key f = Except.error (JSError.error alreadyRegisteredMsg) := by
  simp [registerAsync, getProperty_own r key a ha, BoundValue.funcNotNull, hg]

theorem registerAsync_ok (r : Registry) (key : String) (f : Nat) (r2 : Registry)
    (h : registerAsync r key f = Except.ok r2) :
    r2 = setAction r key ⟨[], some f⟩ ∧
    ∃ a, lookupAction r key = some a ∧ a.func = none := by
  cases hv : getProperty r key with
  | none =>
    simp only [registerAsync, hv] at h
    exact Except.noConfusion h
  | some v =>
    cases v with
    | inherited => simp [registerAsync, hv, BoundValue.funcNotNull] at h
    | record a =>
      by_cases hf : (BoundValue.record a).funcNotNull
      · simp only [registerAsync, hv, if_pos hf] at h
        exact Except.noConfusion h
      · simp only [registerAsync, hv, if_neg hf] at h
        injection h with h2
        refine ⟨h2.symm, a, own_of_getProperty r key a hv, ?_⟩
        simp only [BoundValue.funcNotNull] at hf
        exact Option.not_isSome_iff_eq_none.mp hf

theorem on_fresh (r : Registry) (key : String) (a : Action) (cb : Nat)
    (ha : lookupAction r key = some a) (h : cb ∉ a.subscribers) :
    on' r key cb =
      Except.ok (setAction r key ⟨a.subscribers ++ [cb], a.func⟩, some cb) := by
  simp only [on', getProperty_own r key a ha]
  rw [if_neg h]

theorem on_already_subscribed (r : Registry) (key : String) (a : Action) (cb : Nat)
    (ha : lookupAction r key = some a) (h : cb ∈ a.subscribers) :
    on' r key cb = Except.ok (r, none) := by
  simp only [on', getProperty_own r key a ha]
  rw [if_pos h]

theorem on_ok_cases (r : Registry) (key : String) (cb : Nat)
    (p : Registry × Option Nat) (h : on' r key cb = Except.ok p) :
    p.1 = r ∨ ∃ a, lookupAction r key = some a ∧
      p.1 = setAction r key ⟨a.subscribers ++ [cb], a.func⟩ := by
  cases hv : getProperty r key with
  | none =>
    simp only [on', hv] at h
    exact Except.noConfusion h
  | some v =>
    cases v with
    | inherited =>
      simp only [on', hv] at h
      exact Except.noConfusion h
    | record a =>
      by_cases hm : cb ∈ a.subscribers
      · simp only [on', hv, if_pos hm] at h
        injection h with h2
        left
        rw [← h2]
      · simp only [on', hv, if_neg hm] at h
        injection h with h2
        right
        exact ⟨a, own_of_getProperty r key a hv, by rw [← h2]⟩

theorem unsubscribe_not_subscribed (r : Registry) (key : String) (a : Action) (cb : Nat)
    (ha : lookupAction r key = some a) (hm : cb ∉ a.subscribers) :
    unsubscribe r key cb = Except.ok r := by
  simp only [unsubscribe, getProperty_own r key a ha]
  rw [if_neg hm]

theorem unsubscribe_subscribed (r : Registry) (key : String) (a : Action) (cb : Nat)
    (ha : lookupAction r key = some a) (hm : cb ∈ a.subscribers) :
    unsubscribe r key cb =
      Except.ok (setAction r key ⟨removeFirst cb a.subscribers, a.func⟩) := by
  simp only [unsubscribe, getProperty_own r key a ha]
  rw [if_pos hm]

theorem unsubscribe_ok_cases (r : Registry) (key : String) (cb : Nat) (r2 : Registry)
    (h : unsubscribe r key cb = Except.ok r2) :
    r2 = r ∨ ∃ a, lookupAction r key = some a ∧
      r2 = setAction r key ⟨removeFirst cb a.subscribers, a.func⟩ := by
  cases hv : getProperty r key with
  | none =>
    simp only [unsubscribe, hv] at h
    injection h with h2
    left
    rw [← h2]
  | some v =>
    cases v with
    | inherited =>
      simp only [unsubscribe, hv] at h
      exact Except.noConfusion h
    | record a =>
      by_cases hm : cb ∈ a.subscribers
      · simp only [unsubscribe, hv, if_pos hm] at h
        injection h with h2
        right
        exact ⟨a, own_of_getProperty r key a hv, h2.symm⟩
      · simp only [unsubscribe, hv, if_neg hm] at h
        injection h with h2
        left
        rw [← h2]

theorem publish_own {V : Type} (r : Registry) (key : String) (a : Action)
    (ha : lookupAction r key = some a) (data : V) :
    publish r key data = Except.ok (a.subscribers.map (fun s => (s, data))) := by
  simp [publish, getProperty_own r key a ha]

/-! Shape of one operation's successful outcome, and preservation lemmas. -/

theorem applyOp_shape (r : Registry) (op : Op) :
    applyOp r op = r ∨ ∃ key b, applyOp r op = setAction r key b := by
  cases op with
  | register key f =>
    cases h : registerAsync r key f with
    | error e =>
      left
      simp only [applyOp, h]
    | ok r2 =>
      right
      refine ⟨key, ⟨[], some f⟩, ?_⟩
      simp only [applyOp, h]
      exact (registerAsync_ok r key f r2 h).1
  | subscribe key cb =>
    cases h : on' r key cb with
    | error e =>
      left
      simp only [applyOp, h]
    | ok p =>
      obtain ⟨r2, ret⟩ := p
      rcases on_ok_cases r key cb (r2, ret) h with h1 | ⟨a, _, h1⟩
      · left
        simp only [applyOp, h]
        exact h1
      · right
        exact ⟨key, _, by simp only [applyOp, h]; exact h1⟩
  | unsub key cb =>
    cases h : unsubscribe r key cb with
    | error e =>
      left
      simp only [applyOp, h]
    | ok r2 =>
      rcases unsubscribe_ok_cases r key cb r2 h with h1 | ⟨a, _, h1⟩
      · left
        simp only [applyOp, h]
        exact h1
      · right
        exact ⟨key, _, by simp only [applyOp, h]; exact h1⟩

theorem lookup_applyOp_none (r : Registry) (op : Op) (name : String)
    (h : lookupAction r name = none) :
    lookupAction (applyOp r op) name = none := by
  rcases applyOp_shape r op with hs | ⟨key, b, hs⟩
  · rw [hs]
    exact h
  · rw [hs]
    exact lookup_set_none r key name b h

theorem lookup_applyOps_none (r : Registry) (ops : List Op) (name : String)
    (h : lookupAction r name = none) :
    lookupAction (applyOps r ops) name = none := by
  induction ops generalizing r with
  | nil => exact h
  | cons op rest ih => exact ih (applyOp r op) (lookup_applyOp_none r op name h)

theorem handler_preserved_applyOp (r : Registry) (key : String) (a : Action) (g : Nat)
    (ha : lookupAction r key = some a) (hg : a.func = some g) (op : Op) :
    ∃ b, lookupAction (applyOp r op) key = some b ∧ b.func = some g := by
  cases op with
  | register key2 f =>
    cases h : registerAsync r key2 f with
    | error e =>
      simp only [applyOp, h]
      exact ⟨a, ha, hg⟩
    | ok r2 =>
      simp only [applyOp, h]
      obtain ⟨h2, c, hc, hcf⟩ := registerAsync_ok r key2 f r2 h
      by_cases hk : key2 = key
      · subst hk
        rw [hc] at ha
        injection ha with ha2
        rw [← ha2, hcf] at hg
        exact Option.noConfusion hg
      · rw [h2, lookup_set_ne r key2 key _ (fun hkk => hk hkk.symm)]
        exact ⟨a, ha, hg⟩
  | subscribe key2 cb =>
    cases h : on' r key2 cb with
    | error e =>
      simp only [applyOp, h]
      exact ⟨a, ha, hg⟩
    | ok p =>
      obtain ⟨r2, ret⟩ := p
      simp only [applyOp, h]
      rcases on_ok_cases r key2 cb (r2, ret) h with h1 | ⟨c, hc, h1⟩
      · rw [show r2 = r from h1]
        exact ⟨a, ha, hg⟩
      · by_cases hk : key2 = key
        · subst hk
          rw [hc] at ha
          injection ha with ha2
          rw [show r2 = _ from h1]
          refine ⟨⟨c.subscribers ++ [cb], c.func⟩, lookup_set_self r key2 c _ hc, ?_⟩
          show c.func = some g
          rw [ha2]
          exact hg
        · rw [show r2 = _ from h1, lookup_set_ne r key2 key _ (fun hkk => hk hkk.symm)]
          exact ⟨a, ha, hg⟩
  | unsub key2 cb =>
    cases h : unsubscribe r key2 cb with
    | error e =>
      simp only [applyOp, h]
      exact ⟨a, ha, hg⟩
    | ok r2 =>
      simp only [applyOp, h]
      rcases unsubscribe_ok_cases r key2 cb r2 h with h1 | ⟨c, hc, h1⟩
      · rw [h1]
        exact ⟨a, ha, hg⟩
      · by_cases hk : key2 = key
        · subst hk
          rw [hc] at ha
          injection ha with ha2
          rw [h1]
          refine ⟨⟨removeFirst cb c.subscribers, c.func⟩, lookup_set_self r key2 c _ hc, ?_⟩
          show c.func = some g
          rw [ha2]
          exact hg
        · rw [h1, lookup_set_ne r key2 key _ (fun hkk => hk hkk.symm)]
          exact ⟨a, ha, hg⟩

theorem handler_preserved_applyOps (r : Registry) (key : String) (a : Action) (g : Nat)
    (ha : lookupAction r key = some a) (hg : a.func = some g) (ops : List Op) :
    ∃ b, lookupAction (applyOps r ops) key = some b ∧ b.func = some g := by
  induction ops generalizing r a with
  | nil => exact ⟨a, ha, hg⟩
  | cons op rest ih =>
    obtain ⟨b, hb, hbg⟩ := handler_preserved_applyOp r key a g ha hg op
    exact ih (applyOp r op) b hb hbg

theorem applyOp_subscribe_fresh (r : Registry) (key : String) (a : Action) (cb : Nat)
    (ha : lookupAction r key = some a) (h : cb ∉ a.subscribers) :
    applyOp r (Op.subscribe key cb) =
      setAction r key ⟨a.subscribers ++ [cb], a.func⟩ := by
  simp only [applyOp, on_fresh r key a cb ha h]

/-! Pure list lemmas for unsubscribe. -/

theorem filter_ne_of_not_mem (cb : Nat) (l : List Nat) (h : cb ∉ l) :
    l.filter (fun s => ! (s == cb)) = l := by
  induction l with
  | nil => rfl
  | cons x xs ih =>
    have hx : ¬ (x = cb) := fun he => h (he ▸ List.mem_cons_self x xs)
    have hxs : cb ∉ xs := fun hm => h (List.mem_cons_of_mem x hm)
    simp only [List.filter_cons]
    rw [if_pos (by simp [hx]), ih hxs]

theorem removeFirst_eq_filter (cb : Nat) (l : List Nat) (h : l.count cb ≤ 1) :
    removeFirst cb l = l.filter (fun s => ! (s == cb)) := by
  induction l with
  | nil => rfl
  | cons x xs ih =>
    by_cases hx : x = cb
    · have hnm : cb ∉ xs := by
        rw [hx, List.count_cons_self] at h
        exact List.count_eq_zero.mp (Nat.le_zero.mp (Nat.le_of_succ_le_succ h))
      simp only [removeFirst, if_pos hx, List.filter_cons]
      rw [if_neg (by simp [hx]), filter_ne_of_not_mem cb xs hnm]
    · have hle : xs.count cb ≤ 1 := by
        rw [List.count_cons] at h
        exact Nat.le_trans (Nat.le_add_right _ _) h
      simp only [removeFirst, if_neg hx, List.filter_cons]
      rw [if_pos (by simp [hx]), ih hle]

/-! Claim theorems. -/

/-- C2 counterexample: with the registry constructed from `x` alone, the
name `toString` is not declared, yet `call("toString", 1)` does raise:
`this.actions["toString"]` finds the inherited `Object.prototype.toString`
(truthy), `typeof action.func` is not a function, and `publish` crashes
iterating the `undefined` `action.subscribers`; `unsubscribe("toString", cb)`
likewise crashes reading `.length` of `undefined`.  So `call` and
`unsubscribe` do not return without error for every string name outside the
declared set. -/
theorem call_unsubscribe_unknown_counterexample :
    ("toString" ∉ (["x"] : List String)) ∧
    call (construct ["x"]) "toString" (1 : Nat) =
      Except.error (JSError.typeError subscribersNotIterableMsg) ∧
    unsubscribe (construct ["x"]) "toString" 0 =
      Except.error (JSError.typeError lengthOfUndefinedMsg) :=
  ⟨by decide, rfl, rfl⟩

/-- C2 (amended): for every registry constructed from a name set `S` (and
evolved by any sequence of dispatcher operations) and every payload,
`call` and `unsubscribe` on a name that is neither in `S` nor a member of
`Object.prototype` raise nothing and have no effect: `call` invokes no
handler and no subscriber, and `unsubscribe` returns the entire registry —
every declared action's subscriber list and handler slot — unchanged.
(For undeclared names that `Object.prototype` does provide, such as
`toString`, both operations instead crash with a `TypeError`.) -/
theorem call_unsubscribe_unknown_noop {V : Type} (S : List String) (ops : List Op)
    (name : String) (h : name ∉ S) (hp : name ∉ objectProtoKeys)
    (data : V) (cb : Nat) :
    call (applyOps (construct S) ops) name data = Except.ok CallEffect.noop ∧
    unsubscribe (applyOps (construct S) ops) name cb =
      Except.ok (applyOps (construct S) ops) := by
  have hn : lookupAction (applyOps (construct S) ops) name = none :=
    lookup_applyOps_none (construct S) ops name (lookup_construct_not_mem S name h)
  have hg : getProperty (applyOps (construct S) ops) name = none :=
    getProperty_undef _ name hn hp
  constructor
  · simp [call, hg]
  · simp [unsubscribe, hg]

/-- Witness for C2's amended claim at the spec's concrete scenario:
registry constructed from the single name `x`; `y` is neither declared nor
inherited, so calling and unsubscribing `y` is a raise-nothing no-op. -/
theorem call_unsubscribe_unknown_noop_witness :
    ("y" ∉ (["x"] : List String)) ∧ ("y" ∉ objectProtoKeys) ∧
    (call (applyOps (construct ["x"]) []) "y" (1 : Nat) = Except.ok CallEffect.noop ∧
     unsubscribe (applyOps (construct ["x"]) []) "y" 0 =
       Except.ok (applyOps (construct ["x"]) [])) :=
  ⟨by decide, by decide,
   call_unsubscribe_unknown_noop ["x"] [] "y" (by decide) (by decide) 1 0⟩

/-- C3 (refuted by the code): `on` with an undeclared name does not raise a
state error; the unchecked lookup `this.actions[key].subscribers` crashes
with a runtime `TypeError` — reading `.subscribers` of `undefined` for a
plain undeclared name, or `.includes` of `undefined` for a name inherited
from `Object.prototype` — exactly what the claim says must not happen. -/
theorem on_unknown_crashes (r : Registry) (name : String) (cb : Nat)
    (h : lookupAction r name = none) :
    on' r name cb = Except.error (JSError.typeError
      (if name ∈ objectProtoKeys then includesOfUndefinedMsg
       else undefinedSubscribersMsg)) := by
  by_cases hp : name ∈ objectProtoKeys
  · rw [if_pos hp]
    simp [on', getProperty, h, hp]
  · rw [if_neg hp]
    simp [on', getProperty, h, hp]

/-- Witness for C3's failing input: registry constructed from `x` only;
`on("y", cb)` and `on("toString", cb)` each crash with a `TypeError`, not a
state `Error`. -/
theorem on_unknown_crashes_witness :
    lookupAction (construct ["x"]) "y" = none ∧
    on' (construct ["x"]) "y" 0 = Except.error (JSError.typeError
      (if ("y" : String) ∈ objectProtoKeys then includesOfUndefinedMsg
       else undefinedSubscribersMsg)) ∧
    on' (construct ["x"]) "toString" 0 = Except.error (JSError.typeError
      (if ("toString" : String) ∈ objectProtoKeys then includesOfUndefinedMsg
       else undefinedSubscribersMsg)) :=
  ⟨by decide, on_unknown_crashes (construct ["x"]) "y" 0 (by decide),
   on_unknown_crashes (construct ["x"]) "toString" 0 (by decide)⟩

/-- C4: on an action with a handler, `call` raises nothing, synchronously
invokes the handler with the bound done-callback and the payload, and
invokes no subscriber; publishing happens only through the done-callback,
which hands every subscriber current at done-time exactly the value passed
to it (the payload reaches subscribers only if the handler forwards it to
`done`). -/
theorem call_with_handler_gated {V : Type} (r : Registry) (key : String) (a : Action)
    (f : Nat) (ha : lookupAction r key = some a) (hf : a.func = some f) (payload : V) :
    call r key payload = Except.ok (CallEffect.invokeHandler f key payload) ∧
    (∀ (r2 : Registry) (b : Action) (result : V), lookupAction r2 key = some b →
      buildDoneFunction key r2 result =
        Except.ok (b.subscribers.map (fun s => (s, result)))) := by
  constructor
  · simp [call, getProperty_own r key a ha, BoundValue.handler, hf]
  · intro r2 b result hb
    exact publish_own r2 key b hb result

/-- Witness for C4: action `x` with handler `5` and subscriber `2`;
`call` only invokes the handler, and `done 9` hands subscriber `2` the
value `9`, not the call payload `7`. -/
theorem call_with_handler_gated_witness :
    lookupAction [("x", (⟨[2], some 5⟩ : Action))] "x" = some (⟨[2], some 5⟩ : Action) ∧
    call [("x", (⟨[2], some 5⟩ : Action))] "x" (7 : Nat) =
      Except.ok (CallEffect.invokeHandler 5 "x" 7) ∧
    buildDoneFunction "x" [("x", (⟨[2], some 5⟩ : Action))] (9 : Nat) =
      Except.ok [(2, 9)] :=
  ⟨by decide,
   (call_with_handler_gated [("x", (⟨[2], some 5⟩ : Action))] "x" ⟨[2], some 5⟩ 5
     (by decide) rfl (7 : Nat)).1,
   (call_with_handler_gated [("x", (⟨[2], some 5⟩ : Action))] "x" ⟨[2], some 5⟩ 5
     (by decide) rfl (7 : Nat)).2 [("x", ⟨[2], some 5⟩)] ⟨[2], some 5⟩ 9 (by decide)⟩

/-- C5: on an action with no handler, `call` raises nothing and
synchronously publishes the payload: every current subscriber is invoked
exactly once, in list order, with the payload as sole argument, as part of
the call itself. -/
theorem call_without_handler_publishes {V : Type} (r : Registry) (key : String)
    (a : Action) (ha : lookupAction r key = some a) (hf : a.func = none) (payload : V) :
    call r key payload =
      Except.ok (CallEffect.publishNow (a.subscribers.map (fun s => (s, payload)))) := by
  simp [call, getProperty_own r key a ha, BoundValue.handler, hf,
    publish_own r key a ha payload]

/-- Witness for C5: action `x` with subscribers `1, 2` and no handler;
`call` with payload `4` invokes `1` then `2`, each once, with `4`. -/
theorem call_without_handler_publishes_witness :
    lookupAction [("x", (⟨[1, 2], none⟩ : Action))] "x" = some (⟨[1, 2], none⟩ : Action) ∧
    call [("x", (⟨[1, 2], none⟩ : Action))] "x" (4 : Nat) =
      Except.ok (CallEffect.publishNow [(1, 4), (2, 4)]) :=
  ⟨by decide,
   call_without_handler_publishes [("x", (⟨[1, 2], none⟩ : Action))] "x" ⟨[1, 2], none⟩
     (by decide) rfl 4⟩

/-- C6: for a declared action, `registerAsync` succeeds while no handler is
attached (attaching the given handler), always fails with the state error
`already registered` once a handler is attached (the error leaves the
caller's registry, and so the attached handler, untouched), and the
attached handler survives every later operation: the handler slot goes
from absent to attached at most once over the registry's lifetime. -/
theorem registerAsync_at_most_once (r : Registry) (key : String) (a : Action) (f : Nat)
    (ha : lookupAction r key = some a) :
    (a.func = none →
      registerAsync r key f = Except.ok (setAction r key ⟨[], some f⟩) ∧
      lookupAction (setAction r key ⟨[], some f⟩) key = some ⟨[], some f⟩) ∧
    (∀ g, a.func = some g →
      registerAsync r key f = Except.error (JSError.error alreadyRegisteredMsg)) ∧
    (∀ g ops, a.func = some g →
      Option.map Action.func (lookupAction (applyOps r ops) key) = some (some g)) := by
  refine ⟨?_, ?_, ?_⟩
  · intro hf
    exact ⟨registerAsync_success r key a f ha hf, lookup_set_self r key a _ ha⟩
  · intro g hg
    exact registerAsync_already r key a g f ha hg
  · intro g ops hg
    obtain ⟨b, hb, hbg⟩ := handler_preserved_applyOps r key a g ha hg ops
    rw [hb]
    show some b.func = some (some g)
    rw [hbg]

/-- Witness for C6: on `construct ["x"]` the first `registerAsync` attaches
handler `3`; on the resulting registry a second `registerAsync` fails with
the `already registered` error, and the handler survives a later
subscription. -/
theorem registerAsync_at_most_once_witness :
    lookupAction (construct ["x"]) "x" = some (⟨[], none⟩ : Action) ∧
    (registerAsync (construct ["x"]) "x" 3 =
       Except.ok (setAction (construct ["x"]) "x" ⟨[], some 3⟩) ∧
     lookupAction (setAction (construct ["x"]) "x" ⟨[], some 3⟩) "x" =
       some ⟨[], some 3⟩) ∧
    registerAsync [("x", (⟨[], some 3⟩ : Action))] "x" 4 =
      Except.error (JSError.error alreadyRegisteredMsg) ∧
    Option.map Action.func (lookupAction
      (applyOps [("x", (⟨[], some 3⟩ : Action))] [Op.subscribe "x" 0]) "x") =
      some (some 3) :=
  ⟨by decide,
   (registerAsync_at_most_once (construct ["x"]) "x" ⟨[], none⟩ 3 (by decide)).1 rfl,
   (registerAsync_at_most_once [("x", (⟨[], some 3⟩ : Action))] "x" ⟨[], some 3⟩ 4
      (by decide)).2.1 3 rfl,
   (registerAsync_at_most_once [("x", (⟨[], some 3⟩ : Action))] "x" ⟨[], some 3⟩ 4
      (by decide)).2.2 3 [Op.subscribe "x" 0] rfl⟩

/-- C7: subscribing three distinct fresh callbacks to the same action in the
order cb1, cb2, cb3 (each `on` succeeding and returning its callback)
appends them in that order, so a subsequent publish invokes the earlier
subscribers and then cb1, cb2, cb3, in exactly that insertion order. -/
theorem subscribe_order {V : Type} (r : Registry) (key : String) (a : Action)
    (cb1 cb2 cb3 : Nat) (payload : V)
    (ha : lookupAction r key = some a)
    (h1 : cb1 ∉ a.subscribers) (h2 : cb2 ∉ a.subscribers) (h3 : cb3 ∉ a.subscribers)
    (d12 : cb1 ≠ cb2) (d13 : cb1 ≠ cb3) (d23 : cb2 ≠ cb3) :
    on' r key cb1 =
      Except.ok (setAction r key ⟨a.subscribers ++ [cb1], a.func⟩, some cb1) ∧
    publish
        (applyOps r [Op.subscribe key cb1, Op.subscribe key cb2, Op.subscribe key cb3])
        key payload =
      Except.ok (a.subscribers.map (fun s => (s, payload)) ++
        [(cb1, payload), (cb2, payload), (cb3, payload)]) := by
  have hm2 : cb2 ∉ a.subscribers ++ [cb1] := by
    intro hmem
    rcases List.mem_append.mp hmem with hmm | hmm
    · exact h2 hmm
    · exact d12 (List.mem_singleton.mp hmm).symm
  have hm3 : cb3 ∉ (a.subscribers ++ [cb1]) ++ [cb2] := by
    intro hmem
    rcases List.mem_append.mp hmem with hmm | hmm
    · rcases List.mem_append.mp hmm with hmm2 | hmm2
      · exact h3 hmm2
      · exact d13 (List.mem_singleton.mp hmm2).symm
    · exact d23 (List.mem_singleton.mp hmm).symm
  have e1 : applyOp r (Op.subscribe key cb1) =
      setAction r key ⟨a.subscribers ++ [cb1], a.func⟩ :=
    applyOp_subscribe_fresh r key a cb1 ha h1
  have hl1 : lookupAction (setAction r key ⟨a.subscribers ++ [cb1], a.func⟩) key =
      some ⟨a.subscribers ++ [cb1], a.func⟩ := lookup_set_self r key a _ ha
  have e2 : applyOp (setAction r key ⟨a.subscribers ++ [cb1], a.func⟩)
        (Op.subscribe key cb2) =
      setAction (setAction r key ⟨a.subscribers ++ [cb1], a.func⟩) key
        ⟨(a.subscribers ++ [cb1]) ++ [cb2], a.func⟩ :=
    applyOp_subscribe_fresh _ key ⟨a.subscribers ++ [cb1], a.func⟩ cb2 hl1 hm2
  have hl2 : lookupAction (setAction (setAction r key ⟨a.subscribers ++ [cb1], a.func⟩)
        key ⟨(a.subscribers ++ [cb1]) ++ [cb2], a.func⟩) key =
      some ⟨(a.subscribers ++ [cb1]) ++ [cb2], a.func⟩ :=
    lookup_set_self _ key _ _ hl1
  have e3 : applyOp (setAction (setAction r key ⟨a.subscribers ++ [cb1], a.func⟩) key
        ⟨(a.subscribers ++ [cb1]) ++ [cb2], a.func⟩) (Op.subscribe key cb3) =
      setAction (setAction (setAction r key ⟨a.subscribers ++ [cb1], a.func⟩) key
        ⟨(a.subscribers ++ [cb1]) ++ [cb2], a.func⟩) key
        ⟨((a.subscribers ++ [cb1]) ++ [cb2]) ++ [cb3], a.func⟩ :=
    applyOp_subscribe_fresh _ key ⟨(a.subscribers ++ [cb1]) ++ [cb2], a.func⟩ cb3 hl2 hm3
  have hl3 : lookupAction (setAction (setAction (setAction r key
        ⟨a.subscribers ++ [cb1], a.func⟩) key
        ⟨(a.subscribers ++ [cb1]) ++ [cb2], a.func⟩) key
        ⟨((a.subscribers ++ [cb1]) ++ [cb2]) ++ [cb3], a.func⟩) key =
      some ⟨((a.subscribers ++ [cb1]) ++ [cb2]) ++ [cb3], a.func⟩ :=
    lookup_set_self _ key _ _ hl2
  constructor
  · exact on_fresh r key a cb1 ha h1
  · show publish (applyOp (applyOp (applyOp r (Op.subscribe key cb1))
        (Op.subscribe key cb2)) (Op.subscribe key cb3)) key payload = _
    rw [e1, e2, e3, publish_own _ key _ hl3 payload]
    simp

/-- Witness for C7: from `construct ["x"]`, subscribing `0`, `1`, `2` in
order makes a publish with payload `5` invoke `0`, `1`, `2` in that order. -/
theorem subscribe_order_witness :
    lookupAction (construct ["x"]) "x" = some (⟨[], none⟩ : Action) ∧
    (on' (construct ["x"]) "x" 0 =
       Except.ok (setAction (construct ["x"]) "x" ⟨[0], none⟩, some 0) ∧
     publish (applyOps (construct ["x"])
         [Op.subscribe "x" 0, Op.subscribe "x" 1, Op.subscribe "x" 2]) "x" (5 : Nat) =
       Except.ok [(0, 5), (1, 5), (2, 5)]) :=
  ⟨by decide,
   subscribe_order (construct ["x"]) "x" ⟨[], none⟩ 0 1 2 5 (by decide)
     (by decide) (by decide) (by decide) (by decide) (by decide) (by decide)⟩

/-- C8: subscribing the same callback twice: the first `on` (callback not
yet subscribed) appends it and returns it; the second `on` adds nothing,
returns nothing, and leaves the registry unchanged; the subscriber list
then holds exactly one entry for the callback, and a publish invokes it
exactly once. -/
theorem subscribe_idempotent {V : Type} (r : Registry) (key : String)
    (a : Action) (cb : Nat) (payload : V)
    (ha : lookupAction r key = some a) (h : cb ∉ a.subscribers) :
    on' r key cb =
      Except.ok (setAction r key ⟨a.subscribers ++ [cb], a.func⟩, some cb) ∧
    on' (setAction r key ⟨a.subscribers ++ [cb], a.func⟩) key cb =
      Except.ok (setAction r key ⟨a.subscribers ++ [cb], a.func⟩, none) ∧
    (a.subscribers ++ [cb]).count cb = 1 ∧
    publish (setAction r key ⟨a.subscribers ++ [cb], a.func⟩) key payload =
      Except.ok ((a.subscribers ++ [cb]).map (fun s => (s, payload))) ∧
    ((a.subscribers ++ [cb]).map (fun s => (s, payload))).countP
      (fun e => e.1 == cb) = 1 := by
  have hl1 : lookupAction (setAction r key ⟨a.subscribers ++ [cb], a.func⟩) key =
      some ⟨a.subscribers ++ [cb], a.func⟩ := lookup_set_self r key a _ ha
  have hmem : cb ∈ a.subscribers ++ [cb] :=
    List.mem_append.mpr (Or.inr (List.mem_singleton.mpr rfl))
  have hcount : (a.subscribers ++ [cb]).count cb = 1 := by
    rw [List.count_append, List.count_eq_zero.mpr h]
    simp
  refine ⟨on_fresh r key a cb ha h, on_already_subscribed _ key _ cb hl1 hmem, hcount,
    publish_own _ key _ hl1 payload, ?_⟩
  rw [List.countP_map]
  show (a.subscribers ++ [cb]).countP (fun s => s == cb) = 1
  exact hcount

/-- Witness for C8: from `construct ["x"]`, subscribing callback `7` twice
leaves exactly one entry; the second call returns nothing; a publish with
payload `3` invokes `7` exactly once. -/
theorem subscribe_idempotent_witness :
    lookupAction (construct ["x"]) "x" = some (⟨[], none⟩ : Action) ∧
    (on' (construct ["x"]) "x" 7 =
       Except.ok (setAction (construct ["x"]) "x" ⟨[7], none⟩, some 7) ∧
     on' (setAction (construct ["x"]) "x" ⟨[7], none⟩) "x" 7 =
       Except.ok (setAction (construct ["x"]) "x" ⟨[7], none⟩, none) ∧
     ([] ++ [7] : List Nat).count 7 = 1 ∧
     publish (setAction (construct ["x"]) "x" ⟨[7], none⟩) "x" (3 : Nat) =
       Except.ok (([] ++ [7] : List Nat).map (fun s => (s, 3))) ∧
     (([] ++ [7] : List Nat).map (fun s => (s, (3 : Nat)))).countP
       (fun e => e.1 == 7) = 1) :=
  ⟨by decide,
   subscribe_idempotent (construct ["x"]) "x" ⟨[], none⟩ 7 3 (by decide) (by decide)⟩

/-- C9: `unsubscribe` on a declared action removes the first (and, with no
duplicates, only) entry identical to the callback — the remaining
subscribers keep their relative order and the handler slot is untouched —
after which a publish never invokes that callback; unsubscribing a callback
that is not subscribed raises nothing and changes nothing. -/
theorem unsubscribe_correct {V : Type} (r : Registry) (key : String) (a : Action)
    (cb : Nat) (payload : V) (ha : lookupAction r key = some a) :
    (cb ∉ a.subscribers → unsubscribe r key cb = Except.ok r) ∧
    (a.subscribers.count cb ≤ 1 → cb ∈ a.subscribers →
      unsubscribe r key cb = Except.ok (setAction r key
        ⟨a.subscribers.filter (fun s => ! (s == cb)), a.func⟩) ∧
      publish (setAction r key ⟨a.subscribers.filter (fun s => ! (s == cb)), a.func⟩)
          key payload =
        Except.ok ((a.subscribers.filter (fun s => ! (s == cb))).map
          (fun s => (s, payload))) ∧
      ((a.subscribers.filter (fun s => ! (s == cb))).map
          (fun s => (s, payload))).countP (fun e => e.1 == cb) = 0) := by
  constructor
  · intro h
    exact unsubscribe_not_subscribed r key a cb ha h
  · intro hc hm
    have e := unsubscribe_subscribed r key a cb ha hm
    rw [removeFirst_eq_filter cb a.subscribers hc] at e
    have hset : lookupAction (setAction r key
        ⟨a.subscribers.filter (fun s => ! (s == cb)), a.func⟩) key =
        some ⟨a.subscribers.filter (fun s => ! (s == cb)), a.func⟩ :=
      lookup_set_self r key a _ ha
    refine ⟨e, publish_own _ key _ hset payload, ?_⟩
    rw [List.countP_map, List.countP_eq_zero]
    intro s hs
    have hf := List.of_mem_filter hs
    simpa using hf

/-- Witness for C9: action `x` with subscribers `4, 7, 9`; unsubscribing
the never-subscribed `5` changes nothing; unsubscribing `7` leaves `4, 9`
in order and a publish with payload `2` never invokes `7`. -/
theorem unsubscribe_correct_witness :
    lookupAction [("x", (⟨[4, 7, 9], none⟩ : Action))] "x" =
      some (⟨[4, 7, 9], none⟩ : Action) ∧
    (5 : Nat) ∉ ([4, 7, 9] : List Nat) ∧
    unsubscribe [("x", (⟨[4, 7, 9], none⟩ : Action))] "x" 5 =
      Except.ok [("x", ⟨[4, 7, 9], none⟩)] ∧
    (unsubscribe [("x", (⟨[4, 7, 9], none⟩ : Action))] "x" 7 =
       Except.ok (setAction [("x", (⟨[4, 7, 9], none⟩ : Action))] "x"
         ⟨([4, 7, 9] : List Nat).filter (fun s => ! (s == 7)), none⟩) ∧
     publish (setAction [("x", (⟨[4, 7, 9], none⟩ : Action))] "x"
         ⟨([4, 7, 9] : List Nat).filter (fun s => ! (s == 7)), none⟩) "x" (2 : Nat) =
       Except.ok ((([4, 7, 9] : List Nat).filter (fun s => ! (s == 7))).map
         (fun s => (s, 2))) ∧
     ((([4, 7, 9] : List Nat).filter (fun s => ! (s == 7))).map
         (fun s => (s, (2 : Nat)))).countP (fun e => e.1 == 7) = 0) :=
  ⟨by decide, by decide,
   (unsubscribe_correct [("x", (⟨[4, 7, 9], none⟩ : Action))] "x" ⟨[4, 7, 9], none⟩ 5
      (2 : Nat) (by decide)).1 (by decide),
   (unsubscribe_correct [("x", (⟨[4, 7, 9], none⟩ : Action))] "x" ⟨[4, 7, 9], none⟩ 7
      (2 : Nat) (by decide)).2 (by decide) (by decide)⟩

/-- C10: the mutating operations are local to the name they are given —
whenever `registerAsync`, `on`, or `unsubscribe` on action k1 succeeds, it
leaves every other action's record (its subscriber list and handler slot)
unchanged. -/
theorem operations_frame (r : Registry) (k1 k2 : String) (hne : k2 ≠ k1)
    (f cb : Nat) :
    (∀ r2, registerAsync r k1 f = Except.ok r2 →
      lookupAction r2 k2 = lookupAction r k2) ∧
    (∀ r2 ret, on' r k1 cb = Except.ok (r2, ret) →
      lookupAction r2 k2 = lookupAction r k2) ∧
    (∀ r2, unsubscribe r k1 cb = Except.ok r2 →
      lookupAction r2 k2 = lookupAction r k2) := by
  refine ⟨?_, ?_, ?_⟩
  · intro r2 h
    rw [(registerAsync_ok r k1 f r2 h).1]
    exact lookup_set_ne r k1 k2 _ hne
  · intro r2 ret h
    rcases on_ok_cases r k1 cb (r2, ret) h with h1 | ⟨a, _, h1⟩
    · rw [show r2 = r from h1]
    · rw [show r2 = _ from h1]
      exact lookup_set_ne r k1 k2 _ hne
  · intro r2 h
    rcases unsubscribe_ok_cases r k1 cb r2 h with h1 | ⟨a, _, h1⟩
    · rw [h1]
    · rw [h1]
      exact lookup_set_ne r k1 k2 _ hne

/-- Witness for C10: with actions `x` (holding subscriber `1`) and `y`,
registering, subscribing, and unsubscribing on `x` leave `y`'s record
unchanged. -/
theorem operations_frame_witness :
    ("y" : String) ≠ "x" ∧
    ((∀ r2, registerAsync [("x", (⟨[1], none⟩ : Action)), ("y", ⟨[2], none⟩)] "x" 5 =
        Except.ok r2 →
      lookupAction r2 "y" =
        lookupAction [("x", (⟨[1], none⟩ : Action)), ("y", ⟨[2], none⟩)] "y") ∧
     (∀ r2 ret, on' [("x", (⟨[1], none⟩ : Action)), ("y", ⟨[2], none⟩)] "x" 3 =
        Except.ok (r2, ret) →
      lookupAction r2 "y" =
        lookupAction [("x", (⟨[1], none⟩ : Action)), ("y", ⟨[2], none⟩)] "y") ∧
     (∀ r2, unsubscribe [("x", (⟨[1], none⟩ : Action)), ("y", ⟨[2], none⟩)] "x" 3 =
        Except.ok r2 →
      lookupAction r2 "y" =
        lookupAction [("x", (⟨[1], none⟩ : Action)), ("y", ⟨[2], none⟩)] "y")) :=
  ⟨by decide,
   operations_frame [("x", (⟨[1], none⟩ : Action)), ("y", ⟨[2], none⟩)] "x" "y"
     (by decide) 5 3⟩

/-- C1 counterexample: from `construct ["x"]`, subscribe callback `0`
(succeeding and yielding subscriber list `[0]`), then `registerAsync`
handler `5` (succeeding); the subscriber list after the call is `[]`, not
the `[0]` it held before, and a publish (here of payload `7`, as the
handler's `done` would produce) invokes no one — in particular not the
previously subscribed `0`. -/
theorem registerAsync_drops_subscribers_counterexample :
    on' (construct ["x"]) "x" 0 =
      Except.ok ([("x", ⟨[0], none⟩)], some 0) ∧
    lookupAction [("x", (⟨[0], none⟩ : Action))] "x" = some ⟨[0], none⟩ ∧
    registerAsync [("x", (⟨[0], none⟩ : Action))] "x" 5 =
      Except.ok [("x", ⟨[], some 5⟩)] ∧
    lookupAction [("x", (⟨[], some 5⟩ : Action))] "x" = some ⟨[], some 5⟩ ∧
    publish [("x", (⟨[], some 5⟩ : Action))] "x" (7 : Nat) = Except.ok [] ∧
    ([] : List Nat) ≠ [0] :=
  ⟨rfl, rfl, rfl, rfl, rfl, by decide⟩

/-- C1 (amended): whenever `registerAsync` succeeds, the action's
subscriber list afterwards is empty — callbacks subscribed via `on` before
the call are dropped, so a subsequent publish for the action invokes no
one — while the handler slot holds the new handler. -/
theorem registerAsync_resets_subscribers {V : Type} (r r2 : Registry) (key : String)
    (f : Nat) (payload : V) (h : registerAsync r key f = Except.ok r2) :
    lookupAction r2 key = some ⟨[], some f⟩ ∧
    publish r2 key payload = Except.ok ([] : List (Nat × V)) := by
  obtain ⟨h2, a, ha, hf⟩ := registerAsync_ok r key f r2 h
  have hset : lookupAction r2 key = some ⟨[], some f⟩ := by
    rw [h2]
    exact lookup_set_self r key a _ ha
  refine ⟨hset, ?_⟩
  simp [publish_own r2 key _ hset payload]

/-- Witness for C1's amended claim: registering handler `5` on action `x`
while `0` is subscribed empties the subscriber list; a publish of `7`
invokes no one. -/
theorem registerAsync_resets_subscribers_witness :
    registerAsync [("x", (⟨[0], none⟩ : Action))] "x" 5 =
      Except.ok [("x", ⟨[], some 5⟩)] ∧
    (lookupAction [("x", (⟨[], some 5⟩ : Action))] "x" = some ⟨[], some 5⟩ ∧
     publish [("x", (⟨[], some 5⟩ : Action))] "x" (7 : Nat) = Except.ok []) :=
  ⟨rfl, registerAsync_resets_subscribers [("x", ⟨[0], none⟩)] [("x", ⟨[], some 5⟩)]
    "x" 5 7 rfl⟩

end RadFlux
